import Mathlib

/-!
Verification of the BlueBoxx backend order-reporting controllers
(`order.dashboard.controller.js`, `order.bySite.controller.js`): a shallow
embedding of the window planning, order filtering, per-day aggregation and
result assembly, plus theorems checking the spec's testable properties.

Representation choices of the embedding:
* UTC instants are `Int` milliseconds since the epoch (what `Date.getTime`
  and BSON dates hold).
* Local calendar dates (`YYYY-MM-DD` strings in the source) are represented
  by their epoch day number (`Int`).  `Date.UTC(y,m,d)` is `day * 86400000`
  and `toISOString().slice(0,10)` inverts it, so strings and day numbers are
  in bijection; string comparison and equality become `Int` comparison.
* A timezone (MongoDB's `timezone:` option on `$dateTrunc` / `$dateFromParts`
  / `$dateAdd` / `$dateToString`, backed by the IANA database) is a
  `Timezone` structure: the UTC instant of each local midnight (`toUtc`) and
  the local calendar day of each UTC instant (`ofUtc`), related by the two
  facts true of every real zone in which local midnights exist and are in
  calendar order (DST transitions at 02:00 never remove a midnight).
-/

namespace BlueBoxx

/-- Milliseconds in 24 hours; the constant `24 * 60 * 60 * 1000` that the
source uses for fixed-length day arithmetic (`ONE_DAY_MS`, `86400000`). -/
def msPerDay : Int := 86400000

/-- A timezone as the MongoDB date expressions see it: `toUtc d` is the UTC
instant of local midnight of local day `d` (`$dateFromParts`/`$dateTrunc`
with `timezone:`), `ofUtc t` is the local calendar day containing the UTC
instant `t` (`$dateToString "%Y-%m-%d"` with `timezone:`, or
`Intl.DateTimeFormat(...{timeZone}).format`).  The two covering facts state
that `t` always lies in the local day `[toUtc (ofUtc t), toUtc (ofUtc t + 1))`;
together with `toUtc_lt_succ` they make `ofUtc` the inverse day lookup of
`toUtc`.  Daylight-saving transitions make single days 23 or 25 hours long
(`toUtc (d+1) - toUtc d ≠ 86400000`) but are fully allowed by the axioms. -/
structure Timezone where
  toUtc : Int → Int
  ofUtc : Int → Int
  toUtc_lt_succ : ∀ d : Int, toUtc d < toUtc (d + 1)
  toUtc_ofUtc_le : ∀ t : Int, toUtc (ofUtc t) ≤ t
  lt_toUtc_ofUtc_succ : ∀ t : Int, t < toUtc (ofUtc t + 1)

/-- Midnight table of a concrete model of `America/Edmonton` around one
spring-forward transition: local days before day 30 are at UTC-7 (MST,
midnight at `d * 86400000 + 25200000` UTC) and days from 30 on are at UTC-6
(MDT, midnight at `d * 86400000 + 21600000`), so local day 29 is 23 hours
long.  Used as the concrete timezone of witnesses and counterexamples. -/
def edmontonToUtc (d : Int) : Int :=
  d * 86400000 + (if d < 30 then 25200000 else 21600000)

/-- Day lookup of the concrete Edmonton model, the inverse of
`edmontonToUtc`: floor-divide by the day length after removing the offset in
force at `t`. -/
def edmontonOfUtc (t : Int) : Int :=
  if t < 30 * 86400000 + 21600000 then (t - 25200000) / 86400000
  else (t - 21600000) / 86400000

/-- The concrete Edmonton model as a `Timezone` (a DST transition lies at
day 30, so windows crossing it exercise the 23-hour day). -/
def edmontonModel : Timezone where
  toUtc := edmontonToUtc
  ofUtc := edmontonOfUtc
  toUtc_lt_succ := by
    intro d
    simp only [edmontonToUtc]
    split_ifs <;> omega
  toUtc_ofUtc_le := by
    intro t
    simp only [edmontonToUtc, edmontonOfUtc]
    split_ifs <;> omega
  lt_toUtc_ofUtc_succ := by
    intro t
    simp only [edmontonToUtc, edmontonOfUtc]
    split_ifs <;> omega

/-! ## Order data model

The orders collection is `strict:false`; the embedding keeps exactly the
fields the controllers read.  `Option` models a missing (or `null`) field. -/

/-- One entry of an order's `items` array; the pipeline reads only
`name` (`$ifNull: ['$$it.name', '']`). -/
structure OrderItem where
  name : Option String
  quantity : Int
deriving DecidableEq, Repr

/-- The `dropoff` subdocument; the pipeline reads only `phone`
(`$getField: { field: 'phone', input: '$dropoff' }`). -/
structure Dropoff where
  phone : Option String
deriving DecidableEq, Repr

/-- An order record with the fields the dashboard and range controllers
read: `site` (ObjectId, represented as `Nat`), `createdAt` (UTC instant),
`status`, `totalCents`, `items`, `dropoff.phone` and `userEmail`. -/
structure Order where
  site : Nat
  createdAt : Int
  status : Option String
  totalCents : Option Int
  items : Option (List OrderItem)
  dropoff : Option Dropoff
  userEmail : Option String
deriving DecidableEq, Repr

/-- Per-character lowercasing: the model of JavaScript `toLowerCase()` and
of the aggregation operator `$toLower` on ASCII status strings. -/
def lowerStr (s : String) : String := ⟨s.data.map Char.toLower⟩

/-- The status guard of both controllers:
`$ne: [{ $toLower: { $ifNull: ['$status', ''] } }, 'awaiting_payment']`.
A missing status reads as the empty string, which passes the guard. -/
def statusOk (o : Order) : Bool :=
  !(lowerStr (o.status.getD "") == "awaiting_payment")

/-- The `$match` predicate shared by `getDashboardSeries` and
`getOrdersBySiteRange`: site equality, `createdAt ∈ [startUtc, endUtc)`,
and the case-insensitive `awaiting_payment` exclusion. -/
def matchesWindow (siteId : Nat) (startUtc endUtc : Int) (o : Order) : Bool :=
  o.site == siteId
    && decide (startUtc ≤ o.createdAt)
    && decide (o.createdAt < endUtc)
    && statusOk o

/-- The documents surviving the two `$match` stages of the pipelines. -/
def filteredOrders (siteId : Nat) (startUtc endUtc : Int) (orders : List Order) :
    List Order :=
  orders.filter (matchesWindow siteId startUtc endUtc)

/-- The `customerId` added by `$addFields`, from
`{ $ifNull: [{ $getField: { field: 'phone', input: '$dropoff' } }, '$userEmail'] }`:
the dropoff phone when present, else the order's stored email, else nothing. -/
def customerId (o : Order) : Option String :=
  match o.dropoff.bind Dropoff.phone with
  | some p => some p
  | none => o.userEmail

/-- The local day (`dayKey`) assigned to an order by
`$dateToString: { format: '%Y-%m-%d', ..., timezone: CANADA_TZ }`,
as an epoch day number. -/
def dayKey (tz : Timezone) (o : Order) : Int :=
  tz.ofUtc o.createdAt

/-- The orders of one local calendar day (`$group: { _id: '$dayKey', ... }`
restricted to one group). -/
def dayOrders (tz : Timezone) (d : Int) (os : List Order) : List Order :=
  os.filter (fun o => dayKey tz o == d)

/-- The distinct customer identities of a list of orders
(`$addToSet: '$customerId'` then `$size`): orders whose `customerId`
evaluates to nothing contribute no element. -/
def customersSet (os : List Order) : Finset String :=
  (os.filterMap customerId).toFinset

/-- One `perDay` row of the `$facet` (`orders`, `revenueCents`,
`customers`); `none` when the day has no matching order, in which case the
`$group` emits no row for it and the assembly's `Map` lookup misses. -/
structure DayRow where
  orders : Nat
  revenueCents : Int
  customers : Nat
deriving DecidableEq, Repr

/-- The `perDay` row of local day `d` as the assembly's `byKey` map sees
it: present exactly when some matching order lies on `d`. -/
def perDayRow (tz : Timezone) (os : List Order) (d : Int) : Option DayRow :=
  let g := dayOrders tz d os
  if g.isEmpty then none
  else some ⟨g.length, (g.map (fun o => o.totalCents.getD 0)).sum, (customersSet g).card⟩

/-- All distinct menu-item names of a list of orders: the totals facet's
`itemsAll` (`$addToSet` of each order's name array, empty when `items` is
missing or empty) flattened by `$reduce`/`$concatArrays` and deduplicated
by `$setUnion`.  The set union is unchanged by `$addToSet`'s deduplication
of identical name arrays. -/
def orderItemNames (o : Order) : List String :=
  (o.items.getD []).map (fun it => it.name.getD "")

/-- The whole-window totals row of the `$facet` (`orders`, `revenueCents`,
`customersUnique`, `menuUnique`); on an empty match the `$group` emits no
row and the controller substitutes zeros, which coincides with this
function at `[]`. -/
structure Totals where
  orders : Nat
  revenueCents : Int
  customersUnique : Nat
  menuUnique : Nat
deriving DecidableEq, Repr

/-- The totals facet computed over the filtered orders: unique counts are
single sets over the whole window, not sums of per-day counts. -/
def totalsRow (os : List Order) : Totals where
  orders := os.length
  revenueCents := (os.map (fun o => o.totalCents.getD 0)).sum
  customersUnique := (customersSet os).card
  menuUnique := ((os.map orderItemNames).flatten).toFinset.card

/-! ## Day buckets and labels (`buildDayBucketsDSTSafe` and its helpers) -/

/-- Civil date `(year, month, day)` of an epoch day number (what
`keyToUTCNoonDate` plus the `Intl` formatters recover from a key); the
standard era-based Gregorian conversion, exact for all days. -/
def civilFromDays (z0 : Int) : Int × Int × Int :=
  let z := z0 + 719468
  let era := z / 146097
  let doe := z - era * 146097
  let yoe := (doe - doe / 1460 + doe / 36524 - doe / 146096) / 365
  let y := yoe + era * 400
  let doy := doe - (365 * yoe + yoe / 4 - yoe / 100)
  let mp := (5 * doy + 2) / 153
  let d := doy - (153 * mp + 2) / 5 + 1
  let m := if mp < 10 then mp + 3 else mp - 9
  (if m ≤ 2 then y + 1 else y, m, d)

/-- Two-digit padding of `String(n).padStart(2, '0')` in `keyString` and of
the `2-digit` day of the `Intl` month/day formatter. -/
def pad2 (n : Int) : String :=
  if n < 10 && 0 ≤ n then "0" ++ toString n else toString n

/-- Short weekday names in `Intl` order, `weekday: 'short'`. -/
def weekdayShortNames : List String :=
  ["Sun", "Mon", "Tue", "Wed", "Thu", "Fri", "Sat"]

/-- Short month names of `month: 'short'`. -/
def monthShortNames : List String :=
  ["Jan", "Feb", "Mar", "Apr", "May", "Jun", "Jul", "Aug", "Sep", "Oct", "Nov", "Dec"]

/-- The `weekdayFmt` label of a local day: epoch day 0 (1970-01-01) was a
Thursday, so the weekday index is `(d + 4) mod 7`. -/
def weekdayLabel (d : Int) : String :=
  weekdayShortNames.getD ((d + 4) % 7).toNat ""

/-- The `monthDayFmt` label (`"Mon DD"` style) of a local day. -/
def monthDayLabel (d : Int) : String :=
  let c := civilFromDays d
  (monthShortNames.getD (c.2.1 - 1).toNat "") ++ " " ++ pad2 c.2.2

/-- Label choice of `buildDayBucketsDSTSafe`: weekday name for week mode,
month/day for month and custom mode. -/
def bucketLabel (forWeek : Bool) (d : Int) : String :=
  if forWeek then weekdayLabel d else monthDayLabel d

/-- The `"YYYY-MM-DD"` key the source renders for a bucket (`keyString`)
and for an order's `dayKey` (`$dateToString '%Y-%m-%d'`); both produce this
same string for the same local day, so bucket/row matching on day numbers
is exact. -/
def keyString (d : Int) : String :=
  let c := civilFromDays d
  toString c.1 ++ "-" ++ pad2 c.2.1 ++ "-" ++ pad2 c.2.2

/-- One dashboard bucket: local day key plus display label. -/
structure Bucket where
  key : Int
  label : String
deriving DecidableEq, Repr

/-- The consecutive local days from `s` to `e` inclusive (empty when
`e < s`): the values taken by `cur` in the source's
`while (cmpKeys(cur, end) <= 0) { ...; cur = nextKey(cur) }` loop, whose
`nextKey` advances the calendar date by exactly one day. -/
def dayRange (s e : Int) : List Int :=
  (List.range (e - s + 1).toNat).map (fun (n : ℕ) => s + (n : Int))

/-- The bucket list of `buildDayBucketsDSTSafe(startUtc, endUtc, tz, forWeek)`:
first included local day is the local date of `startUtc`, last is the local
date of the instant `endUtc - 1` just before the exclusive bound, and the
walk advances one calendar day at a time (never a fixed 24 hours). -/
def buildDayBucketsDSTSafe (tz : Timezone) (startUtc endUtc : Int) (forWeek : Bool) :
    List Bucket :=
  let s := tz.ofUtc startUtc
  let e := tz.ofUtc (endUtc - 1)
  (dayRange s e).map (fun d => { key := d, label := bucketLabel forWeek d })

/-! ## Window planning -/

/-- The fixed timezone name of the dashboard and range controllers. -/
def CANADA_TZ : String := "America/Edmonton"

/-- The custom-range cap of both controllers (`MAX_CUSTOM_DAYS = 62`). -/
def MAX_CUSTOM_DAYS : Int := 62

/-- A resolved reporting mode: `custom` carries the parsed `start`/`end`
calendar dates as epoch day numbers. -/
inductive Mode
  | week
  | month
  | custom (startDay endDay : Int)
deriving DecidableEq, Repr

/-- The app-side clamp of the custom end date: the source computes
`diffDays = floor((endUtc - startUtc) / 86400000) + 1` from the two UTC
midnights (which is `endDay - startDay + 1` exactly) and, when it exceeds
62, rewrites `endStr` to `start + 61 days`; the start date is untouched. -/
def clampEndDay (s e : Int) : Int :=
  if e - s + 1 > MAX_CUSTOM_DAYS then s + (MAX_CUSTOM_DAYS - 1) else e

/-- Whether the dashboard labels buckets with weekday names
(`forWeekLabels = (mode === 'week')`). -/
def dashForWeek : Mode → Bool
  | .week => true
  | _ => false

/-- The dashboard's `[startExpr, endExpr)` window as UTC instants, for a
pipeline evaluated at instant `now` (`$$NOW`):
for week/month, `$dateTrunc('$$NOW', day, tz)` is local midnight of today
(`toUtc (ofUtc now)`) and `$dateAdd(..., day, n, tz)` moves whole local
calendar days, so the window is `[today - 6 days, tomorrow)` for week and
`[today - 29 days, tomorrow)` for month; for custom, `$dateFromParts` of
the (clamped) dates gives `[start, end + 1 day)`, both via local
midnights. -/
def dashWindow (tz : Timezone) (now : Int) : Mode → Int × Int
  | .week => (tz.toUtc (tz.ofUtc now - 6), tz.toUtc (tz.ofUtc now + 1))
  | .month => (tz.toUtc (tz.ofUtc now - 29), tz.toUtc (tz.ofUtc now + 1))
  | .custom s e => (tz.toUtc s, tz.toUtc (clampEndDay s e + 1))

/-! ## The dashboard endpoint (`getDashboardSeries`) -/

/-- The matched orders of a dashboard request. -/
def dashFiltered (tz : Timezone) (now : Int) (siteId : Nat) (allOrders : List Order)
    (mode : Mode) : List Order :=
  filteredOrders siteId (dashWindow tz now mode).1 (dashWindow tz now mode).2 allOrders

/-- The bucket list the dashboard builds: the `windowEcho` facet runs
`$limit: 1` on the output of the two `$match` stages, so when no order
matches, `windowEcho` is empty, `windowDoc.start`/`end` fall back to
`null`, and `buildDayBucketsDSTSafe` returns `[]` from its
`if (!startUtc || !endUtc)` guard; otherwise it receives the resolved
window instants. -/
def dashBuckets (tz : Timezone) (now : Int) (siteId : Nat) (allOrders : List Order)
    (mode : Mode) : List Bucket :=
  if (dashFiltered tz now siteId allOrders mode).isEmpty then []
  else
    buildDayBucketsDSTSafe tz (dashWindow tz now mode).1 (dashWindow tz now mode).2
      (dashForWeek mode)

/-- Cents-to-currency conversion `Math.round((cents / 100) * 100) / 100`,
modelled in exact arithmetic: for integer cents the inner value is already
an integer number of cents, so the rounding is the identity and the result
is `cents / 100` as a rational. -/
def formatRevenue (cents : Int) : Rat := (cents : Rat) / 100

/-- The success body of `GET /api/order/dashboard`: echoed window (UTC
instants, `none` when the `windowEcho` facet was empty), labels, the three
per-day series aligned 1:1 with the buckets, and the whole-window totals. -/
structure DashResponse where
  ok : Bool
  windowStart : Option Int
  windowEnd : Option Int
  labels : List String
  orders : List Nat
  revenue : List Rat
  customers : List Nat
  totOrders : Nat
  totRevenue : Rat
  totCustomersUnique : Nat
  totMenuUnique : Nat
deriving DecidableEq, Repr

/-- The dashboard response body for a resolved site and mode: per-day rows
are aligned to the bucket keys through the `byKey` map, missing days
becoming `(0, 0.00, 0)`; totals mirror the totals facet (zeros when it is
empty, which coincides with `totalsRow []`). -/
def getDashboardSeries (tz : Timezone) (now : Int) (siteId : Nat)
    (allOrders : List Order) (mode : Mode) : DashResponse :=
  let filtered := dashFiltered tz now siteId allOrders mode
  let buckets := dashBuckets tz now siteId allOrders mode
  let t := totalsRow filtered
  { ok := true
    windowStart := if filtered.isEmpty then none else some (dashWindow tz now mode).1
    windowEnd := if filtered.isEmpty then none else some (dashWindow tz now mode).2
    labels := buckets.map Bucket.label
    orders := buckets.map (fun b => match perDayRow tz filtered b.key with
      | some row => row.orders
      | none => 0)
    revenue := buckets.map (fun b => match perDayRow tz filtered b.key with
      | some row => formatRevenue row.revenueCents
      | none => 0)
    customers := buckets.map (fun b => match perDayRow tz filtered b.key with
      | some row => row.customers
      | none => 0)
    totOrders := t.orders
    totRevenue := formatRevenue t.revenueCents
    totCustomersUnique := t.customersUnique
    totMenuUnique := t.menuUnique }

/-- The dashboard's mode/date query parameters after `site` resolution:
`custom none` stands for a custom request whose `start` or `end` is missing
or fails the `^\d{4}-\d{2}-\d{2}$` test. -/
inductive ModeParam
  | week
  | month
  | custom (dates : Option (Int × Int))
deriving DecidableEq, Repr

/-- The dashboard handler's validation layer: custom mode without two
well-formed dates is answered with HTTP 400; every other path reaches the
aggregation and responds with the series.  There is no date-order check:
a reversed custom range proceeds. -/
def getDashboardSeriesEndpoint (tz : Timezone) (now : Int) (siteId : Nat)
    (allOrders : List Order) : ModeParam → Except String DashResponse
  | .week => .ok (getDashboardSeries tz now siteId allOrders Mode.week)
  | .month => .ok (getDashboardSeries tz now siteId allOrders Mode.month)
  | .custom none => .error "start and end (YYYY-MM-DD) are required for custom mode"
  | .custom (some (s, e)) => .ok (getDashboardSeries tz now siteId allOrders (Mode.custom s e))

/-! ## The range endpoint (`getOrdersBySiteRange`) -/

/-- The `[startExpr, endExpr)` window of `GET /api/order/by-site/range`:
week and month use `$dateTrunc('$$NOW', day, tz)` (local midnight of
today) as the exclusive end — the window ends yesterday — and subtract
`7`/`30` days with a `$dateAdd` carrying no `timezone:` option, hence
fixed 24-hour days; custom starts at the local midnight of `start` and
ends at `$dateAdd(end-midnight, day, 1)` — again without `timezone:`,
hence a fixed 24 hours past the local midnight of `end`. -/
def rangeWindow (tz : Timezone) (now : Int) : Mode → Int × Int
  | .week => (tz.toUtc (tz.ofUtc now) - 7 * msPerDay, tz.toUtc (tz.ofUtc now))
  | .month => (tz.toUtc (tz.ofUtc now) - 30 * msPerDay, tz.toUtc (tz.ofUtc now))
  | .custom s e => (tz.toUtc s, tz.toUtc (clampEndDay s e) + msPerDay)

/-- The order list of the range endpoint: the same site/window/status
`$match` as the dashboard, over the range window.  (The `$sort createdAt
desc` stage only permutes the list and is not modelled; no claim concerns
order.) -/
def getOrdersBySiteRange (tz : Timezone) (now : Int) (siteId : Nat)
    (allOrders : List Order) (mode : Mode) : List Order :=
  filteredOrders siteId (rangeWindow tz now mode).1 (rangeWindow tz now mode).2 allOrders

/-! ## The single-day endpoint (`getOrdersBySiteDay`) -/

/-- The fallback timezone name of the by-site controller (`DEFAULT_TZ`). -/
def DEFAULT_TZ : String := "America/Edmonton"

/-- The by-site controller's IANA check: the string must contain a slash
and name a zone the `Intl` database knows (`knownZone` abstracts that
database); anything else — including a missing parameter — is invalid. -/
def isValidIana (knownZone : String → Bool) (tzParam : Option String) : Bool :=
  match tzParam with
  | none => false
  | some t => t.data.contains ('/') && knownZone t

/-- The timezone name the day endpoint actually uses: the client's when it
passes `isValidIana`, else the Edmonton fallback — an invalid timezone is
never rejected. -/
def usedTzOf (knownZone : String → Bool) (tzParam : Option String) : String :=
  if isValidIana knownZone tzParam then tzParam.getD DEFAULT_TZ else DEFAULT_TZ

/-- The `clampInt(val, min, max, fallback)` helper: `parseInt` failures
(`none`) take the fallback, numbers are clamped into `[lo, hi]`. -/
def clampInt (v : Option Int) (lo hi fallback : Int) : Int :=
  match v with
  | none => fallback
  | some n => min (max n lo) hi

/-- The response of `GET /api/order/by-site/day`: the timezone actually
used, the reported window, and the matched orders.  (The per-order
display-field normalisation `pickDisplayName`/`Phone`/`Email` rewrites
fields no claim reads and is the identity on the modelled ones.) -/
structure DayResponse where
  tzUsed : String
  windowStart : Int
  windowEnd : Int
  matched : List Order
deriving DecidableEq, Repr

/-- The day endpoint for a resolved site and validated date (epoch day
`day`): the query matches `[start, start + (1 + extraDays) days)` in the
used zone (extraDays clamped into 0..14, default 7) with no status filter,
while the response window is the single requested day — except that the
window materialisation (`$limit: 1` over the whole collection) yields no
document when the collection is empty, in which case the code falls back
to the UTC midnights of the date string. -/
def getOrdersBySiteDay (zoneOf : String → Timezone) (knownZone : String → Bool)
    (tzParam : Option String) (extraDaysParam : Option Int)
    (siteId : Nat) (day : Int) (allOrders : List Order) : DayResponse :=
  let usedTz := usedTzOf knownZone tzParam
  let tz := zoneOf usedTz
  let futureDays := clampInt extraDaysParam 0 14 7
  let startMs := tz.toUtc day
  let endExtendedMs := tz.toUtc (day + 1 + futureDays)
  let matched := allOrders.filter (fun o =>
    o.site == siteId && decide (startMs ≤ o.createdAt) && decide (o.createdAt < endExtendedMs))
  if allOrders.isEmpty then
    { tzUsed := usedTz
      windowStart := day * msPerDay
      windowEnd := day * msPerDay + msPerDay
      matched := matched }
  else
    { tzUsed := usedTz
      windowStart := startMs
      windowEnd := tz.toUtc (day + 1)
      matched := matched }

/-- The day handler's validation layer: missing site (or one that does not
resolve) and missing/malformed date are answered with HTTP 400/404 before
any window planning; the timezone parameter is never a reason to fail. -/
def getOrdersBySiteDayEndpoint (zoneOf : String → Timezone) (knownZone : String → Bool)
    (siteParam : Option Nat) (dateParam : Option Int)
    (tzParam : Option String) (extraDaysParam : Option Int)
    (allOrders : List Order) : Except String DayResponse :=
  match siteParam with
  | none => .error "site (slug) is required"
  | some siteId =>
    match dateParam with
    | none => .error "date must be YYYY-MM-DD"
    | some day =>
      .ok (getOrdersBySiteDay zoneOf knownZone tzParam extraDaysParam siteId day allOrders)

/-! ## Concrete sample data

Used by the witnesses and counterexamples below; `dstNow` lies on local day
33 of the Edmonton model, so the trailing week and month windows both span
the spring-forward transition at day 30. -/

/-- An instant on local day 33 of `edmontonModel` (its local midnight). -/
def dstNow : Int := edmontonToUtc 33

/-- A plain paid order on local day 33 of the Edmonton model. -/
def wOrder : Order where
  site := 1
  createdAt := edmontonToUtc 33
  status := some "paid"
  totalCents := some 1500
  items := some [{ name := some "Burger", quantity := 1 }]
  dropoff := some { phone := some "555-0100" }
  userEmail := some "a@example.com"

/-- An order still awaiting payment (mixed-case status) on local day 33. -/
def awOrder : Order where
  site := 1
  createdAt := edmontonToUtc 33
  status := some "Awaiting_Payment"
  totalCents := some 500
  items := none
  dropoff := none
  userEmail := some "b@example.com"

/-- An order with no status field at all, on local day 32. -/
def noStatusOrder : Order where
  site := 1
  createdAt := edmontonToUtc 32
  status := none
  totalCents := some 700
  items := none
  dropoff := none
  userEmail := some "c@example.com"

/-! # Theorems -/

/-! ## Timezone facts -/

theorem Timezone.toUtc_strictMono (tz : Timezone) : StrictMono tz.toUtc :=
  strictMono_int_of_lt_succ tz.toUtc_lt_succ

theorem Timezone.toUtc_mono (tz : Timezone) {a b : Int} (h : a ≤ b) :
    tz.toUtc a ≤ tz.toUtc b :=
  tz.toUtc_strictMono.monotone h

/-- The local day lookup is determined by the midnight table: an instant
inside `[toUtc d, toUtc (d+1))` lies on local day `d`. -/
theorem Timezone.ofUtc_eq (tz : Timezone) {d t : Int}
    (h1 : tz.toUtc d ≤ t) (h2 : t < tz.toUtc (d + 1)) : tz.ofUtc t = d := by
  by_contra hne
  rcases lt_or_gt_of_ne hne with hlt | hgt
  · have hm := tz.toUtc_mono (show tz.ofUtc t + 1 ≤ d by omega)
    have hc := tz.lt_toUtc_ofUtc_succ t
    omega
  · have hm := tz.toUtc_mono (show d + 1 ≤ tz.ofUtc t by omega)
    have hc := tz.toUtc_ofUtc_le t
    omega

theorem Timezone.ofUtc_toUtc (tz : Timezone) (d : Int) : tz.ofUtc (tz.toUtc d) = d :=
  tz.ofUtc_eq le_rfl (tz.toUtc_lt_succ d)

theorem Timezone.ofUtc_mono (tz : Timezone) {a b : Int} (h : a ≤ b) :
    tz.ofUtc a ≤ tz.ofUtc b := by
  by_contra hlt
  push_neg at hlt
  have h1 := tz.toUtc_mono (show tz.ofUtc b + 1 ≤ tz.ofUtc a by omega)
  have h2 := tz.toUtc_ofUtc_le a
  have h3 := tz.lt_toUtc_ofUtc_succ b
  omega

/-- Local midnight of `d + 1` sits just past every instant of local day
`d`, so the day of `toUtc (d+1) - 1` is `d` itself. -/
theorem Timezone.ofUtc_toUtc_succ_sub_one (tz : Timezone) (d : Int) :
    tz.ofUtc (tz.toUtc (d + 1) - 1) = d := by
  have h := tz.toUtc_lt_succ d
  exact tz.ofUtc_eq (by omega) (by omega)

/-! ## Bucket walk facts -/

theorem length_dayRange (s e : Int) : (dayRange s e).length = (e - s + 1).toNat := by
  simp [dayRange]

theorem mem_dayRange {s e d : Int} : d ∈ dayRange s e ↔ s ≤ d ∧ d ≤ e := by
  simp only [dayRange, List.mem_map, List.mem_range]
  constructor
  · rintro ⟨i, hi, rfl⟩
    omega
  · rintro ⟨h1, h2⟩
    exact ⟨(d - s).toNat, by omega, by omega⟩

theorem nodup_dayRange (s e : Int) : (dayRange s e).Nodup := by
  refine List.Nodup.map ?_ (List.nodup_range _)
  intro a b hab
  have hab' : s + (a : Int) = s + (b : Int) := hab
  omega

/-- Bucket keys of a window whose bounds are local midnights `toUtc ds`
and `toUtc de`: the walked local days are exactly `ds .. de - 1`. -/
theorem buildDayBuckets_toUtc (tz : Timezone) (ds de : Int) (fw : Bool) :
    buildDayBucketsDSTSafe tz (tz.toUtc ds) (tz.toUtc de) fw =
      (dayRange ds (de - 1)).map (fun d => { key := d, label := bucketLabel fw d }) := by
  unfold buildDayBucketsDSTSafe
  rw [tz.ofUtc_toUtc]
  have h : tz.ofUtc (tz.toUtc de - 1) = de - 1 := by
    have := tz.ofUtc_toUtc_succ_sub_one (de - 1)
    simpa using this
  rw [h]

/-- A window of `n` whole local days (`toUtc ds` to `toUtc (ds + n)`)
yields exactly `n` buckets, however the DST transitions fall. -/
theorem length_buildDayBuckets_toUtc (tz : Timezone) (ds de : Int) (fw : Bool) :
    (buildDayBucketsDSTSafe tz (tz.toUtc ds) (tz.toUtc de) fw).length = (de - ds).toNat := by
  rw [buildDayBuckets_toUtc]
  simp [length_dayRange]
  omega

/-! ## Dashboard assembly facts -/

/-- The four response series are built by mapping over the bucket list, so
each has the bucket list's length. -/
theorem getDashboardSeries_lengths (tz : Timezone) (now : Int) (siteId : Nat)
    (allOrders : List Order) (mode : Mode) :
    (getDashboardSeries tz now siteId allOrders mode).labels.length =
        (dashBuckets tz now siteId allOrders mode).length ∧
      (getDashboardSeries tz now siteId allOrders mode).orders.length =
        (dashBuckets tz now siteId allOrders mode).length ∧
      (getDashboardSeries tz now siteId allOrders mode).revenue.length =
        (dashBuckets tz now siteId allOrders mode).length ∧
      (getDashboardSeries tz now siteId allOrders mode).customers.length =
        (dashBuckets tz now siteId allOrders mode).length := by
  refine ⟨?_, ?_, ?_, ?_⟩ <;> simp [getDashboardSeries]

/-- With at least one matching order, the dashboard's week window spans 7
whole local days, so the bucket walk returns 7 buckets regardless of DST
transitions inside the window. -/
theorem dashBuckets_week_length (tz : Timezone) (now : Int) (siteId : Nat)
    (allOrders : List Order)
    (h : dashFiltered tz now siteId allOrders Mode.week ≠ []) :
    (dashBuckets tz now siteId allOrders Mode.week).length = 7 := by
  unfold dashBuckets
  rw [if_neg (by simpa [List.isEmpty_iff] using h)]
  show (buildDayBucketsDSTSafe tz (tz.toUtc (tz.ofUtc now - 6))
    (tz.toUtc (tz.ofUtc now + 1)) (dashForWeek Mode.week)).length = 7
  rw [length_buildDayBuckets_toUtc]
  omega

/-- With at least one matching order, the dashboard's month window spans 30
whole local days, so the bucket walk returns 30 buckets regardless of DST
transitions inside the window. -/
theorem dashBuckets_month_length (tz : Timezone) (now : Int) (siteId : Nat)
    (allOrders : List Order)
    (h : dashFiltered tz now siteId allOrders Mode.month ≠ []) :
    (dashBuckets tz now siteId allOrders Mode.month).length = 30 := by
  unfold dashBuckets
  rw [if_neg (by simpa [List.isEmpty_iff] using h)]
  show (buildDayBucketsDSTSafe tz (tz.toUtc (tz.ofUtc now - 29))
    (tz.toUtc (tz.ofUtc now + 1)) (dashForWeek Mode.month)).length = 30
  rw [length_buildDayBuckets_toUtc]
  omega

/-! ## Claim C1 -/

/-- C1 (amended): whenever at least one order matches the window filter,
week mode produces exactly 7 day buckets (and 7 entries in each of labels,
orders, revenue, customers) and month mode exactly 30, for every current
instant and every timezone — in particular when a DST transition of
America/Edmonton lies inside the window.  (When no order matches, the
`windowEcho` facet is empty and the response carries zero buckets; see the
counterexample.) -/
theorem C1_week_month_bucket_counts (tz : Timezone) (now : Int) (siteId : Nat)
    (allOrders : List Order)
    (hW : dashFiltered tz now siteId allOrders Mode.week ≠ [])
    (hM : dashFiltered tz now siteId allOrders Mode.month ≠ []) :
    (dashBuckets tz now siteId allOrders Mode.week).length = 7 ∧
      (getDashboardSeries tz now siteId allOrders Mode.week).labels.length = 7 ∧
      (getDashboardSeries tz now siteId allOrders Mode.week).orders.length = 7 ∧
      (getDashboardSeries tz now siteId allOrders Mode.week).revenue.length = 7 ∧
      (getDashboardSeries tz now siteId allOrders Mode.week).customers.length = 7 ∧
      (dashBuckets tz now siteId allOrders Mode.month).length = 30 ∧
      (getDashboardSeries tz now siteId allOrders Mode.month).labels.length = 30 ∧
      (getDashboardSeries tz now siteId allOrders Mode.month).orders.length = 30 ∧
      (getDashboardSeries tz now siteId allOrders Mode.month).revenue.length = 30 ∧
      (getDashboardSeries tz now siteId allOrders Mode.month).customers.length = 30 := by
  have hw := dashBuckets_week_length tz now siteId allOrders hW
  have hm := dashBuckets_month_length tz now siteId allOrders hM
  have hlw := getDashboardSeries_lengths tz now siteId allOrders Mode.week
  have hlm := getDashboardSeries_lengths tz now siteId allOrders Mode.month
  exact ⟨hw, hlw.1.trans hw, hlw.2.1.trans hw, hlw.2.2.1.trans hw, hlw.2.2.2.trans hw,
    hm, hlm.1.trans hm, hlm.2.1.trans hm, hlm.2.2.1.trans hm, hlm.2.2.2.trans hm⟩

/-- C1 witness: a paid order on local day 33 of the Edmonton model makes
both filters nonempty while the spring-forward transition at day 30 lies
inside both windows; the theorem then gives 7 and 30 buckets. -/
theorem C1_week_month_bucket_counts_witness :
    (dashBuckets edmontonModel dstNow 1 [wOrder] Mode.week).length = 7 ∧
      (dashBuckets edmontonModel dstNow 1 [wOrder] Mode.month).length = 30 := by
  have h := C1_week_month_bucket_counts edmontonModel dstNow 1 [wOrder]
    (by decide) (by decide)
  exact ⟨h.1, h.2.2.2.2.2.1⟩

/-- C1 counterexample: with no matching order at all (an empty collection)
the `windowEcho` facet is empty, the window echoes as null, and week mode
produces 0 buckets and 0 labels — not 7. -/
theorem C1_counterexample :
    (dashBuckets edmontonModel dstNow 1 [] Mode.week).length ≠ 7 ∧
      (getDashboardSeries edmontonModel dstNow 1 [] Mode.week).labels.length ≠ 7 ∧
      (getDashboardSeries edmontonModel dstNow 1 [] Mode.week).windowStart = none := by
  decide

/-! ## Claim C6 -/

/-- C6: for every mode and order collection, the response arrays labels,
orders, revenue and customers all have the bucket-key list's length, are
ordered 1:1 with it (labels is the bucket labels in order), and a bucket
day with no matching order yields `(0, 0.00, 0)` at its position. -/
theorem C6_series_alignment (tz : Timezone) (now : Int) (siteId : Nat)
    (allOrders : List Order) (mode : Mode) :
    (getDashboardSeries tz now siteId allOrders mode).labels =
        (dashBuckets tz now siteId allOrders mode).map Bucket.label ∧
      (getDashboardSeries tz now siteId allOrders mode).labels.length =
        (dashBuckets tz now siteId allOrders mode).length ∧
      (getDashboardSeries tz now siteId allOrders mode).orders.length =
        (dashBuckets tz now siteId allOrders mode).length ∧
      (getDashboardSeries tz now siteId allOrders mode).revenue.length =
        (dashBuckets tz now siteId allOrders mode).length ∧
      (getDashboardSeries tz now siteId allOrders mode).customers.length =
        (dashBuckets tz now siteId allOrders mode).length ∧
      ∀ i : ℕ, ∀ b : Bucket, (dashBuckets tz now siteId allOrders mode)[i]? = some b →
        dayOrders tz b.key (dashFiltered tz now siteId allOrders mode) = [] →
        (getDashboardSeries tz now siteId allOrders mode).orders[i]? = some 0 ∧
          (getDashboardSeries tz now siteId allOrders mode).revenue[i]? = some 0 ∧
          (getDashboardSeries tz now siteId allOrders mode).customers[i]? = some 0 ∧
          (getDashboardSeries tz now siteId allOrders mode).labels[i]? = some b.label := by
  have hl := getDashboardSeries_lengths tz now siteId allOrders mode
  refine ⟨rfl, hl.1, hl.2.1, hl.2.2.1, hl.2.2.2, ?_⟩
  intro i b hb hday
  have hrow : perDayRow tz (dashFiltered tz now siteId allOrders mode) b.key = none := by
    simp [perDayRow, hday]
  refine ⟨?_, ?_, ?_, ?_⟩ <;>
    simp [getDashboardSeries, List.getElem?_map, hb, hrow]

/-! ## Claim C3 -/

/-- An order failing the status guard fails the whole `$match` predicate. -/
theorem matchesWindow_eq_false_of_statusOk_false {siteId : Nat} {s e : Int} {o : Order}
    (h : statusOk o = false) : matchesWindow siteId s e o = false := by
  simp [matchesWindow, h]

/-- Dropping an order that fails the status guard leaves the filtered list
unchanged, wherever the order sits in the collection. -/
theorem filteredOrders_drop_of_statusOk_false {siteId : Nat} {s e : Int} {o : Order}
    (h : statusOk o = false) (l1 l2 : List Order) :
    filteredOrders siteId s e (l1 ++ o :: l2) = filteredOrders siteId s e (l1 ++ l2) := by
  simp [filteredOrders, List.filter_append, List.filter_cons,
    matchesWindow_eq_false_of_statusOk_false h]

/-- C3: an order whose status lower-cases to `awaiting_payment` (any letter
casing) contributes to no per-day row and to no whole-window total: the
entire dashboard response is the same as if the order were absent, even
when its site and createdAt match the window. -/
theorem C3_awaiting_payment_excluded (tz : Timezone) (now : Int) (siteId : Nat)
    (mode : Mode) (l1 l2 : List Order) (o : Order)
    (h : lowerStr (o.status.getD "") = "awaiting_payment") :
    getDashboardSeries tz now siteId (l1 ++ o :: l2) mode =
      getDashboardSeries tz now siteId (l1 ++ l2) mode := by
  have hst : statusOk o = false := by
    simp [statusOk, h]
  have hdf : dashFiltered tz now siteId (l1 ++ o :: l2) mode =
      dashFiltered tz now siteId (l1 ++ l2) mode := by
    unfold dashFiltered
    exact filteredOrders_drop_of_statusOk_false hst l1 l2
  have hdb : dashBuckets tz now siteId (l1 ++ o :: l2) mode =
      dashBuckets tz now siteId (l1 ++ l2) mode := by
    unfold dashBuckets
    rw [hdf]
  unfold getDashboardSeries
  rw [hdf, hdb]

/-- C3 witness: a mixed-case `Awaiting_Payment` order inside the week
window (matching site and createdAt) leaves the response untouched. -/
theorem C3_awaiting_payment_excluded_witness :
    getDashboardSeries edmontonModel dstNow 1 ([wOrder] ++ awOrder :: []) Mode.week =
      getDashboardSeries edmontonModel dstNow 1 ([wOrder] ++ []) Mode.week :=
  C3_awaiting_payment_excluded edmontonModel dstNow 1 Mode.week [wOrder] [] awOrder
    (by decide)

/-! ## Claim C4 -/

/-- C4: a custom request with well-formed dates spanning more than 62
inclusive days keeps the requested start, moves the end date earlier to
`start + 61` so the inclusive span is exactly 62 days, and the handler
still answers with a success response (the clamp raises no error). -/
theorem C4_custom_clamp (tz : Timezone) (now : Int) (siteId : Nat)
    (allOrders : List Order) (s e : Int) (h : e - s + 1 > 62) :
    clampEndDay s e = s + 61 ∧
      clampEndDay s e < e ∧
      clampEndDay s e - s + 1 = 62 ∧
      dashWindow tz now (Mode.custom s e) = (tz.toUtc s, tz.toUtc (s + 62)) ∧
      getDashboardSeriesEndpoint tz now siteId allOrders (ModeParam.custom (some (s, e))) =
        Except.ok (getDashboardSeries tz now siteId allOrders (Mode.custom s e)) := by
  have hc : clampEndDay s e = s + 61 := by
    simp only [clampEndDay, MAX_CUSTOM_DAYS]
    rw [if_pos (by omega)]
    norm_num
  refine ⟨hc, by omega, by omega, ?_, rfl⟩
  simp only [dashWindow, hc]
  rw [show s + 61 + 1 = s + 62 by ring]

/-- C4 witness: a 101-day request (days 0..100) is clamped to days 0..61
and succeeds. -/
theorem C4_custom_clamp_witness :
    clampEndDay 0 100 = 61 ∧
      dashWindow edmontonModel dstNow (Mode.custom 0 100) =
        (edmontonModel.toUtc 0, edmontonModel.toUtc 62) ∧
      getDashboardSeriesEndpoint edmontonModel dstNow 1 [] (ModeParam.custom (some (0, 100))) =
        Except.ok (getDashboardSeries edmontonModel dstNow 1 [] (Mode.custom 0 100)) := by
  have h := C4_custom_clamp edmontonModel dstNow 1 [] 0 100 (by decide)
  exact ⟨h.1, h.2.2.2.1, h.2.2.2.2⟩

/-! ## Claim C5 -/

/-- C5 (amended): a custom request whose end date precedes its start date
is not rejected: the handler returns a success response whose window
matches nothing — no order satisfies the filter, the `windowEcho` facet is
empty, and the response carries a null window, empty series arrays and
zero totals. -/
theorem C5_reversed_range_succeeds (tz : Timezone) (now : Int) (siteId : Nat)
    (allOrders : List Order) (s e : Int) (h : e < s) :
    getDashboardSeriesEndpoint tz now siteId allOrders (ModeParam.custom (some (s, e))) =
        Except.ok (getDashboardSeries tz now siteId allOrders (Mode.custom s e)) ∧
      dashFiltered tz now siteId allOrders (Mode.custom s e) = [] ∧
      getDashboardSeries tz now siteId allOrders (Mode.custom s e) =
        { ok := true, windowStart := none, windowEnd := none, labels := [],
          orders := [], revenue := [], customers := [],
          totOrders := 0, totRevenue := 0, totCustomersUnique := 0, totMenuUnique := 0 } := by
  have hc : clampEndDay s e = e := by
    simp only [clampEndDay, MAX_CUSTOM_DAYS]
    rw [if_neg (by omega)]
  have hle : tz.toUtc (clampEndDay s e + 1) ≤ tz.toUtc s :=
    tz.toUtc_mono (by omega)
  have hfil : dashFiltered tz now siteId allOrders (Mode.custom s e) = [] := by
    unfold dashFiltered filteredOrders
    rw [List.filter_eq_nil_iff]
    intro o ho hcontra
    simp only [matchesWindow, dashWindow, Bool.and_eq_true, decide_eq_true_eq] at hcontra
    obtain ⟨⟨⟨-, h1⟩, h2⟩, -⟩ := hcontra
    omega
  refine ⟨rfl, hfil, ?_⟩
  unfold getDashboardSeries dashBuckets
  rw [hfil]
  simp [totalsRow, customersSet, formatRevenue]

/-- C5 witness for the amended claim: a reversed range (start day 10, end
day 5) yields the empty success response. -/
theorem C5_reversed_range_succeeds_witness :
    getDashboardSeriesEndpoint edmontonModel dstNow 1 [wOrder] (ModeParam.custom (some (10, 5))) =
        Except.ok (getDashboardSeries edmontonModel dstNow 1 [wOrder] (Mode.custom 10 5)) ∧
      dashFiltered edmontonModel dstNow 1 [wOrder] (Mode.custom 10 5) = [] := by
  have h := C5_reversed_range_succeeds edmontonModel dstNow 1 [wOrder] 10 5 (by decide)
  exact ⟨h.1, h.2.1⟩

/-- C5 counterexample to the claim as stated: the reversed custom request
is answered with `ok` (an empty series), not with a ValidationError. -/
theorem C5_counterexample :
    getDashboardSeriesEndpoint edmontonModel dstNow 1 [wOrder] (ModeParam.custom (some (10, 5))) =
        Except.ok (getDashboardSeries edmontonModel dstNow 1 [wOrder] (Mode.custom 10 5)) ∧
      (getDashboardSeries edmontonModel dstNow 1 [wOrder] (Mode.custom 10 5)).ok = true ∧
      (getDashboardSeries edmontonModel dstNow 1 [wOrder] (Mode.custom 10 5)).labels = [] ∧
      (getDashboardSeries edmontonModel dstNow 1 [wOrder] (Mode.custom 10 5)).windowStart = none :=
  ⟨rfl, by decide, by decide, by decide⟩

/-! ## Claim C7 -/

/-- C7 (amended): the range endpoint does not resolve the dashboard's
window.  For the same instant, its week window is
`[today@00:00 − 7·24h, today@00:00)` — the end is local midnight of today,
so today is excluded and the start is a fixed-24-hour subtraction — while
the dashboard's week window is `[today − 6 local days, tomorrow@00:00)`,
which contains today's local midnight; the two end bounds always differ by
one local day, and likewise in month mode. -/
theorem C7_range_window_differs (tz : Timezone) (now : Int) :
    (rangeWindow tz now Mode.week).2 = tz.toUtc (tz.ofUtc now) ∧
      (dashWindow tz now Mode.week).2 = tz.toUtc (tz.ofUtc now + 1) ∧
      (rangeWindow tz now Mode.week).2 < (dashWindow tz now Mode.week).2 ∧
      (rangeWindow tz now Mode.week).1 = tz.toUtc (tz.ofUtc now) - 7 * msPerDay ∧
      (dashWindow tz now Mode.week).1 = tz.toUtc (tz.ofUtc now - 6) ∧
      (dashWindow tz now Mode.week).1 ≤ tz.toUtc (tz.ofUtc now) ∧
      tz.toUtc (tz.ofUtc now) < (dashWindow tz now Mode.week).2 ∧
      (rangeWindow tz now Mode.month).2 = tz.toUtc (tz.ofUtc now) ∧
      (dashWindow tz now Mode.month).2 = tz.toUtc (tz.ofUtc now + 1) ∧
      (rangeWindow tz now Mode.month).2 < (dashWindow tz now Mode.month).2 := by
  have hsucc := tz.toUtc_lt_succ (tz.ofUtc now)
  have hmono : tz.toUtc (tz.ofUtc now - 6) ≤ tz.toUtc (tz.ofUtc now) :=
    tz.toUtc_mono (by omega)
  exact ⟨rfl, rfl, hsucc, rfl, rfl, hmono, hsucc, rfl, rfl, hsucc⟩

/-- C7 counterexample to the claim as stated: at a concrete instant the
two endpoints resolve different windows in both week and month mode (the
range window ends a local day earlier and excludes today). -/
theorem C7_counterexample :
    rangeWindow edmontonModel dstNow Mode.week ≠ dashWindow edmontonModel dstNow Mode.week ∧
      rangeWindow edmontonModel dstNow Mode.month ≠ dashWindow edmontonModel dstNow Mode.month := by
  decide

/-! ## Claim C8 -/

/-- C8 (amended): for every /orders/day request over a nonempty order
collection, the reported window is exactly the single requested local
calendar day `[toUtc day, toUtc (day+1))` in the zone actually used, for
every value of the lookahead parameter — even though the underlying query
matches the wider `[toUtc day, toUtc (day + 1 + extraDays))` with
`extraDays` clamped into `0..14` (default 7).  (Over an empty collection
the `$limit: 1` materialisation yields nothing and the response falls back
to the UTC midnights of the date string; see the counterexample.) -/
theorem C8_day_window_frame (zoneOf : String → Timezone) (knownZone : String → Bool)
    (tzParam : Option String) (e1 e2 : Option Int) (siteId : Nat) (day : Int)
    (allOrders : List Order) (h : allOrders ≠ []) :
    (getOrdersBySiteDay zoneOf knownZone tzParam e1 siteId day allOrders).windowStart =
        (zoneOf (usedTzOf knownZone tzParam)).toUtc day ∧
      (getOrdersBySiteDay zoneOf knownZone tzParam e1 siteId day allOrders).windowEnd =
        (zoneOf (usedTzOf knownZone tzParam)).toUtc (day + 1) ∧
      (getOrdersBySiteDay zoneOf knownZone tzParam e1 siteId day allOrders).matched =
        allOrders.filter (fun o =>
          o.site == siteId
            && decide ((zoneOf (usedTzOf knownZone tzParam)).toUtc day ≤ o.createdAt)
            && decide (o.createdAt <
                (zoneOf (usedTzOf knownZone tzParam)).toUtc (day + 1 + clampInt e1 0 14 7))) ∧
      (getOrdersBySiteDay zoneOf knownZone tzParam e1 siteId day allOrders).windowStart =
        (getOrdersBySiteDay zoneOf knownZone tzParam e2 siteId day allOrders).windowStart ∧
      (getOrdersBySiteDay zoneOf knownZone tzParam e1 siteId day allOrders).windowEnd =
        (getOrdersBySiteDay zoneOf knownZone tzParam e2 siteId day allOrders).windowEnd := by
  have hne : allOrders.isEmpty = false := by
    simpa [List.isEmpty_iff] using h
  unfold getOrdersBySiteDay
  rw [hne]
  exact ⟨rfl, rfl, rfl, rfl, rfl⟩

/-- C8 witness: with one order in the collection the reported window is
local day 31 of the Edmonton model for two different lookahead values. -/
theorem C8_day_window_frame_witness :
    (getOrdersBySiteDay (fun _ => edmontonModel) (fun _ => false) none (some 3) 1 31
        [wOrder]).windowStart = edmontonModel.toUtc 31 ∧
      (getOrdersBySiteDay (fun _ => edmontonModel) (fun _ => false) none (some 3) 1 31
        [wOrder]).windowEnd = edmontonModel.toUtc 32 ∧
      (getOrdersBySiteDay (fun _ => edmontonModel) (fun _ => false) none (some 3) 1 31
          [wOrder]).windowEnd =
        (getOrdersBySiteDay (fun _ => edmontonModel) (fun _ => false) none (some 11) 1 31
          [wOrder]).windowEnd := by
  have h := C8_day_window_frame (fun _ => edmontonModel) (fun _ => false) none (some 3)
    (some 11) 1 31 [wOrder] (by decide)
  exact ⟨h.1, h.2.1, h.2.2.2.2⟩

/-- C8 counterexample to the claim as stated: over an empty collection the
reported window start is the UTC midnight of the date string, not the
local midnight of the requested day in the zone used (the offset Edmonton
model), for every lookahead value. -/
theorem C8_counterexample :
    (getOrdersBySiteDay (fun _ => edmontonModel) (fun _ => false) none none 1 31
        []).windowStart ≠ edmontonModel.toUtc 31 := by
  decide

/-! ## Claim C9 -/

/-- C9 (amended): a request whose timezone parameter is not a known IANA
identifier is not rejected: no ValidationError is raised for it, the
endpoint answers exactly as if `America/Edmonton` had been requested, and
the response's `tz` field reports that fallback zone. -/
theorem C9_invalid_tz_falls_back (zoneOf : String → Timezone) (knownZone : String → Bool)
    (siteParam : Option Nat) (dateParam : Option Int) (tzParam : Option String)
    (extraDaysParam : Option Int) (allOrders : List Order)
    (h : isValidIana knownZone tzParam = false) :
    usedTzOf knownZone tzParam = DEFAULT_TZ ∧
      getOrdersBySiteDayEndpoint zoneOf knownZone siteParam dateParam tzParam
          extraDaysParam allOrders =
        getOrdersBySiteDayEndpoint zoneOf knownZone siteParam dateParam (some DEFAULT_TZ)
          extraDaysParam allOrders := by
  have hu : usedTzOf knownZone tzParam = DEFAULT_TZ := by
    unfold usedTzOf
    rw [h]
    rfl
  have hu' : usedTzOf knownZone (some DEFAULT_TZ) = DEFAULT_TZ := by
    unfold usedTzOf
    split_ifs <;> rfl
  refine ⟨hu, ?_⟩
  unfold getOrdersBySiteDayEndpoint
  rcases siteParam with - | siteId
  · rfl
  rcases dateParam with - | day
  · rfl
  unfold getOrdersBySiteDay
  rw [hu, hu']

/-- C9 witness: `"Edmonton"` (no slash) is invalid whatever the Intl
database holds, and the request proceeds with the fallback zone. -/
theorem C9_invalid_tz_falls_back_witness :
    usedTzOf (fun _ => true) (some "Edmonton") = DEFAULT_TZ ∧
      getOrdersBySiteDayEndpoint (fun _ => edmontonModel) (fun _ => true) (some 1) (some 31)
          (some "Edmonton") none [wOrder] =
        getOrdersBySiteDayEndpoint (fun _ => edmontonModel) (fun _ => true) (some 1) (some 31)
          (some DEFAULT_TZ) none [wOrder] :=
  C9_invalid_tz_falls_back (fun _ => edmontonModel) (fun _ => true) (some 1) (some 31)
    (some "Edmonton") none [wOrder] (by decide)

/-- C9 counterexample to the claim as stated: an unknown timezone yields a
success response computed in the substitute zone America/Edmonton — window
planned, query run, order returned — instead of a ValidationError. -/
theorem C9_counterexample :
    getOrdersBySiteDayEndpoint (fun _ => edmontonModel) (fun _ => true) (some 1) (some 31)
        (some "Edmonton") none [wOrder] =
      Except.ok
        { tzUsed := "America/Edmonton", windowStart := edmontonModel.toUtc 31,
          windowEnd := edmontonModel.toUtc 32, matched := [wOrder] } := by
  rfl

/-! ## Claim C10 -/

/-- C10: an order whose status field is missing reads as the empty string
in the `$ifNull`/`$toLower` guard and therefore passes it; with matching
site and createdAt it is included in the dashboard's matched orders and in
the /orders/range result. -/
theorem C10_missing_status_included (tz : Timezone) (now : Int) (siteId : Nat)
    (allOrders : List Order) (o : Order) (mode : Mode)
    (h0 : o.status = none) (h1 : o.site = siteId) (hmem : o ∈ allOrders)
    (hd1 : (dashWindow tz now mode).1 ≤ o.createdAt)
    (hd2 : o.createdAt < (dashWindow tz now mode).2)
    (hr1 : (rangeWindow tz now mode).1 ≤ o.createdAt)
    (hr2 : o.createdAt < (rangeWindow tz now mode).2) :
    statusOk o = true ∧
      o ∈ dashFiltered tz now siteId allOrders mode ∧
      o ∈ getOrdersBySiteRange tz now siteId allOrders mode := by
  have hs : statusOk o = true := by
    unfold statusOk
    rw [h0]
    decide
  refine ⟨hs, ?_, ?_⟩
  · unfold dashFiltered filteredOrders
    refine List.mem_filter.mpr ⟨hmem, ?_⟩
    simp [matchesWindow, h1, hs, hd1, hd2]
  · unfold getOrdersBySiteRange filteredOrders
    refine List.mem_filter.mpr ⟨hmem, ?_⟩
    simp [matchesWindow, h1, hs, hr1, hr2]

/-- C10 witness: the status-less order on local day 32 (yesterday relative
to `dstNow`) lies in both the dashboard and the range week windows and is
included by both endpoints. -/
theorem C10_missing_status_included_witness :
    statusOk noStatusOrder = true ∧
      noStatusOrder ∈ dashFiltered edmontonModel dstNow 1 [noStatusOrder] Mode.week ∧
      noStatusOrder ∈ getOrdersBySiteRange edmontonModel dstNow 1 [noStatusOrder] Mode.week :=
  C10_missing_status_included edmontonModel dstNow 1 [noStatusOrder] noStatusOrder Mode.week
    (by decide) (by decide) (by decide) (by decide) (by decide) (by decide) (by decide)

/-! ## Claim C2: supporting facts -/

theorem mem_customersSet {os : List Order} {x : String} :
    x ∈ customersSet os ↔ ∃ o ∈ os, customerId o = some x := by
  simp [customersSet, List.mem_filterMap]

theorem mem_dayOrders {tz : Timezone} {d : Int} {os : List Order} {o : Order} :
    o ∈ dayOrders tz d os ↔ o ∈ os ∧ dayKey tz o = d := by
  simp [dayOrders, List.mem_filter]

/-- The assembled per-day customer count of any day equals the size of that
day's distinct customer set, absent days giving the empty set. -/
theorem perDayRow_customers (tz : Timezone) (os : List Order) (d : Int) :
    (match perDayRow tz os d with
      | some row => row.customers
      | none => 0) = (customersSet (dayOrders tz d os)).card := by
  cases hg : (dayOrders tz d os).isEmpty
  · simp [perDayRow, hg]
  · have hnil : dayOrders tz d os = [] := List.isEmpty_iff.mp hg
    simp [perDayRow, hg, hnil, customersSet]

/-- The response's customers series, written as the per-day set sizes over
the bucket keys. -/
theorem getDashboardSeries_customers (tz : Timezone) (now : Int) (siteId : Nat)
    (allOrders : List Order) (mode : Mode) :
    (getDashboardSeries tz now siteId allOrders mode).customers =
      ((dashBuckets tz now siteId allOrders mode).map Bucket.key).map
        (fun d =>
          (customersSet (dayOrders tz d (dashFiltered tz now siteId allOrders mode))).card) := by
  unfold getDashboardSeries
  rw [List.map_map]
  exact List.map_congr_left (fun b _ => perDayRow_customers tz _ b.key)

/-- Every dashboard window is a pair of local midnights. -/
theorem dashWindow_toUtc (tz : Timezone) (now : Int) (mode : Mode) :
    ∃ a b : Int, dashWindow tz now mode = (tz.toUtc a, tz.toUtc b) := by
  cases mode <;> exact ⟨_, _, rfl⟩

/-- Keys of the bucket walk over a local-midnight window. -/
theorem buildDayBuckets_keys (tz : Timezone) (ds de : Int) (fw : Bool) :
    (buildDayBucketsDSTSafe tz (tz.toUtc ds) (tz.toUtc de) fw).map Bucket.key =
      dayRange ds (de - 1) := by
  rw [buildDayBuckets_toUtc, List.map_map]
  exact (List.map_congr_left fun d _ => rfl).trans (List.map_id _)

theorem nodup_dashKeys (tz : Timezone) (now : Int) (siteId : Nat)
    (allOrders : List Order) (mode : Mode) :
    ((dashBuckets tz now siteId allOrders mode).map Bucket.key).Nodup := by
  unfold dashBuckets
  split_ifs
  · simp
  · obtain ⟨a, b, heq⟩ := dashWindow_toUtc tz now mode
    rw [heq]
    rw [buildDayBuckets_keys]
    exact nodup_dayRange _ _

/-- Every matched order's local day is one of the bucket keys. -/
theorem dayKey_mem_dashKeys {tz : Timezone} {now : Int} {siteId : Nat}
    {allOrders : List Order} {mode : Mode} {o : Order}
    (ho : o ∈ dashFiltered tz now siteId allOrders mode) :
    dayKey tz o ∈ (dashBuckets tz now siteId allOrders mode).map Bucket.key := by
  obtain ⟨a, b, heq⟩ := dashWindow_toUtc tz now mode
  have hbounds : tz.toUtc a ≤ o.createdAt ∧ o.createdAt < tz.toUtc b := by
    have ho' := ho
    unfold dashFiltered filteredOrders at ho'
    rw [List.mem_filter] at ho'
    have hm := ho'.2
    simp only [matchesWindow, heq, Bool.and_eq_true, decide_eq_true_eq] at hm
    exact ⟨hm.1.1.2, hm.1.2⟩
  have hne : dashFiltered tz now siteId allOrders mode ≠ [] := List.ne_nil_of_mem ho
  unfold dashBuckets
  rw [if_neg (by simpa [List.isEmpty_iff] using hne), heq]
  show dayKey tz o ∈ (buildDayBucketsDSTSafe tz (tz.toUtc a) (tz.toUtc b) _).map Bucket.key
  rw [buildDayBuckets_keys]
  refine mem_dayRange.mpr ⟨?_, ?_⟩
  · have := tz.ofUtc_mono hbounds.1
    rwa [tz.ofUtc_toUtc] at this
  · have h1 : o.createdAt ≤ tz.toUtc b - 1 := by omega
    have h2 := tz.ofUtc_mono h1
    have h3 : tz.ofUtc (tz.toUtc b - 1) = b - 1 := by
      have := tz.ofUtc_toUtc_succ_sub_one (b - 1)
      simpa using this
    unfold dayKey
    omega

/-- The whole-window distinct customer set partitions over the bucket
days. -/
theorem customersSet_dashFiltered_biUnion (tz : Timezone) (now : Int) (siteId : Nat)
    (allOrders : List Order) (mode : Mode) :
    customersSet (dashFiltered tz now siteId allOrders mode) =
      ((dashBuckets tz now siteId allOrders mode).map Bucket.key).toFinset.biUnion
        (fun d => customersSet (dayOrders tz d (dashFiltered tz now siteId allOrders mode))) := by
  ext x
  simp only [Finset.mem_biUnion, List.mem_toFinset]
  constructor
  · intro hx
    obtain ⟨o, ho, hco⟩ := mem_customersSet.mp hx
    exact ⟨dayKey tz o, dayKey_mem_dashKeys ho,
      mem_customersSet.mpr ⟨o, mem_dayOrders.mpr ⟨ho, rfl⟩, hco⟩⟩
  · rintro ⟨d, -, hx⟩
    obtain ⟨o, ho, hco⟩ := mem_customersSet.mp hx
    exact mem_customersSet.mpr ⟨o, (mem_dayOrders.mp ho).1, hco⟩

/-- Overlapping members of two distinct parts make the union's size
strictly smaller than the sum of the parts' sizes. -/
theorem card_biUnion_lt_of_two_mem {ι α : Type} [DecidableEq ι] [DecidableEq α]
    {s : Finset ι} {t : ι → Finset α} {i j : ι} {x : α}
    (hi : i ∈ s) (hj : j ∈ s) (hij : i ≠ j) (hxi : x ∈ t i) (hxj : x ∈ t j) :
    (s.biUnion t).card < ∑ k in s, (t k).card := by
  have hins : insert i (s.erase i) = s := Finset.insert_erase hi
  have hxR : x ∈ (s.erase i).biUnion t :=
    Finset.mem_biUnion.mpr ⟨j, Finset.mem_erase.mpr ⟨Ne.symm hij, hj⟩, hxj⟩
  have hbi : s.biUnion t = t i ∪ (s.erase i).biUnion t := by
    conv_lhs => rw [← hins]
    rw [Finset.biUnion_insert]
  have hcard : (t i ∪ (s.erase i).biUnion t).card =
      (t i \ (s.erase i).biUnion t).card + ((s.erase i).biUnion t).card :=
    (Finset.card_sdiff_add_card _ _).symm
  have hlt : (t i \ (s.erase i).biUnion t).card < (t i).card := by
    apply Finset.card_lt_card
    rw [Finset.ssubset_iff_subset_ne]
    refine ⟨Finset.sdiff_subset, fun he => ?_⟩
    have hx' : x ∈ t i \ (s.erase i).biUnion t := by
      rw [he]
      exact hxi
    exact (Finset.mem_sdiff.mp hx').2 hxR
  have hRle : ((s.erase i).biUnion t).card ≤ ∑ k in s.erase i, (t k).card :=
    Finset.card_biUnion_le
  have hsum : (t i).card + ∑ k in s.erase i, (t k).card = ∑ k in s, (t k).card :=
    Finset.add_sum_erase s (fun k => (t k).card) hi
  rw [hbi, hcard]
  omega

/-- C2: the whole-window unique customer count is the size of one distinct
set over all matched orders (not a sum of per-day counts); it is at most
the sum of the per-day unique counts of the response, with equality exactly
when no customer identity appears on two different local calendar days of
the window. -/
theorem C2_unique_customers_window_vs_days (tz : Timezone) (now : Int) (siteId : Nat)
    (allOrders : List Order) (mode : Mode) :
    (getDashboardSeries tz now siteId allOrders mode).totCustomersUnique =
        (customersSet (dashFiltered tz now siteId allOrders mode)).card ∧
      (getDashboardSeries tz now siteId allOrders mode).totCustomersUnique ≤
        ((getDashboardSeries tz now siteId allOrders mode).customers).sum ∧
      ((getDashboardSeries tz now siteId allOrders mode).totCustomersUnique =
          ((getDashboardSeries tz now siteId allOrders mode).customers).sum ↔
        ∀ o1 ∈ dashFiltered tz now siteId allOrders mode,
          ∀ o2 ∈ dashFiltered tz now siteId allOrders mode,
          ∀ c : String, customerId o1 = some c → customerId o2 = some c →
            dayKey tz o1 = dayKey tz o2) := by
  have h1 : (getDashboardSeries tz now siteId allOrders mode).totCustomersUnique =
      (customersSet (dashFiltered tz now siteId allOrders mode)).card := rfl
  have hsumlist : ((getDashboardSeries tz now siteId allOrders mode).customers).sum =
      ∑ d in ((dashBuckets tz now siteId allOrders mode).map Bucket.key).toFinset,
        (customersSet (dayOrders tz d (dashFiltered tz now siteId allOrders mode))).card := by
    rw [getDashboardSeries_customers]
    exact (List.sum_toFinset _ (nodup_dashKeys tz now siteId allOrders mode)).symm
  have hpart := customersSet_dashFiltered_biUnion tz now siteId allOrders mode
  have hle : (customersSet (dashFiltered tz now siteId allOrders mode)).card ≤
      ∑ d in ((dashBuckets tz now siteId allOrders mode).map Bucket.key).toFinset,
        (customersSet (dayOrders tz d (dashFiltered tz now siteId allOrders mode))).card := by
    rw [hpart]
    exact Finset.card_biUnion_le
  refine ⟨h1, by rw [h1, hsumlist]; exact hle, ?_⟩
  rw [h1, hsumlist]
  constructor
  · intro heq o1 ho1 o2 ho2 c hc1 hc2
    by_contra hne
    have hm1 : dayKey tz o1 ∈
        ((dashBuckets tz now siteId allOrders mode).map Bucket.key).toFinset :=
      List.mem_toFinset.mpr (dayKey_mem_dashKeys ho1)
    have hm2 : dayKey tz o2 ∈
        ((dashBuckets tz now siteId allOrders mode).map Bucket.key).toFinset :=
      List.mem_toFinset.mpr (dayKey_mem_dashKeys ho2)
    have hx1 : c ∈ customersSet
        (dayOrders tz (dayKey tz o1) (dashFiltered tz now siteId allOrders mode)) :=
      mem_customersSet.mpr ⟨o1, mem_dayOrders.mpr ⟨ho1, rfl⟩, hc1⟩
    have hx2 : c ∈ customersSet
        (dayOrders tz (dayKey tz o2) (dashFiltered tz now siteId allOrders mode)) :=
      mem_customersSet.mpr ⟨o2, mem_dayOrders.mpr ⟨ho2, rfl⟩, hc2⟩
    have hlt := @card_biUnion_lt_of_two_mem Int String _ _
      (((dashBuckets tz now siteId allOrders mode).map Bucket.key).toFinset)
      (fun d => customersSet (dayOrders tz d (dashFiltered tz now siteId allOrders mode)))
      (dayKey tz o1) (dayKey tz o2) c hm1 hm2 hne hx1 hx2
    simp only [] at hlt
    rw [hpart] at heq
    omega
  · intro hcond
    rw [hpart]
    apply Finset.card_biUnion
    intro d1 hd1' d2 hd2' hne12
    rw [Finset.disjoint_left]
    intro c hc1 hc2
    obtain ⟨o1, ho1, hco1⟩ := mem_customersSet.mp hc1
    obtain ⟨o2, ho2, hco2⟩ := mem_customersSet.mp hc2
    obtain ⟨ho1F, hday1⟩ := mem_dayOrders.mp ho1
    obtain ⟨ho2F, hday2⟩ := mem_dayOrders.mp ho2
    exact hne12 (by rw [← hday1, ← hday2, hcond o1 ho1F o2 ho2F c hco1 hco2])

end BlueBoxx
